import Mathlib

/-!
Verification development for the AI Tutor repository.

The Python sources are shallowly embedded over `List Char` (Python `str` is
modelled as a list of characters; the inputs relevant to the claims are ASCII,
and the ASCII fragments of Python's `\w`, `\s`, `str.lower`, `str.isalpha`
are modelled).  Every random primitive (`random.choice`, `random.sample`,
`random.shuffle`) is driven by an explicit stream of natural numbers
(`Seed`): each primitive consumes entries of the stream and any possible
outcome of the Python RNG corresponds to some stream, so universally
quantified theorems over the seed cover every run.  `while` loops are given
an explicit fuel; a result of `none` for every fuel corresponds to
non-termination of the Python loop.
-/

namespace AITutor

/-- Seed stream driving the embedded pseudo-random primitives. -/
abbrev Seed := List Nat

/-- Draw the next value from the seed stream (0 when exhausted). -/
def rnext : Seed → Nat × Seed
  | [] => (0, [])
  | x :: xs => (x, xs)

/-- ASCII fragment of Python's whitespace class used by `\s`, `str.split()` and `str.strip()`. -/
def isSpaceChar (c : Char) : Bool :=
  c = ' ' || c = '\t' || c = '\n' || c = '\r' || c.toNat = 11 || c.toNat = 12

/-- ASCII fragment of Python's regex word class `\w` (alphanumerics and underscore). -/
def isWordChar (c : Char) : Bool :=
  c.isAlphanum || c = '_'

/-- Sentence-ending punctuation, the class given to the splits on the regex class of dot, bang and question mark. -/
def isSentEnd (c : Char) : Bool :=
  c = '.' || c = '!' || c = '?'

/-- Lowercasing a string, modelling Python's `str.lower` on ASCII text. -/
def toLowerL (s : List Char) : List Char :=
  s.map Char.toLower

/-- Left trim by a character class. -/
def dropLeading (p : Char → Bool) (s : List Char) : List Char :=
  s.dropWhile p

/-- Python's `str.strip()`: remove leading and trailing whitespace. -/
def trim (s : List Char) : List Char :=
  ((s.dropWhile isSpaceChar).reverse.dropWhile isSpaceChar).reverse

/-- Test whether the first argument is an initial segment of the second. -/
def startsWithL : List Char → List Char → Bool
  | [], _ => true
  | _ :: _, [] => false
  | p :: ps, c :: cs => (p == c) && startsWithL ps cs

/-- Accumulator worker for maximal runs of characters satisfying `p`. -/
def runsByAux (p : Char → Bool) : List Char → List Char → List (List Char)
  | [], acc => if acc.isEmpty then [] else [acc.reverse]
  | c :: cs, acc =>
      if p c then runsByAux p cs (c :: acc)
      else if acc.isEmpty then runsByAux p cs acc
      else acc.reverse :: runsByAux p cs []

/-- Maximal runs of characters satisfying `p` (used for `str.split()` and for the regex find-all of word runs). -/
def runsBy (p : Char → Bool) (s : List Char) : List (List Char) :=
  runsByAux p s []

/-- Python's `str.split()` with no argument: maximal non-whitespace runs. -/
def splitWs (s : List Char) : List (List Char) :=
  runsBy (fun c => !isSpaceChar c) s

/-- The regex find-all of `\w+` word runs with word boundaries, as a list of words. -/
def wordRuns (s : List Char) : List (List Char) :=
  runsBy isWordChar s

/-- Whole-word containment: the regex search for the word `w` between word
boundaries succeeds on `s` iff `w` is one of the maximal word runs of `s`
(all searched words consist of word characters only). -/
def containsWord (w : List Char) (s : List Char) : Bool :=
  (wordRuns s).contains w

/-- Accumulator worker splitting at every character satisfying `p`, keeping empty pieces,
modelling a regex split on a single-character class. -/
def splitCharsAux (p : Char → Bool) : List Char → List Char → List (List Char)
  | [], acc => [acc.reverse]
  | c :: cs, acc =>
      if p c then acc.reverse :: splitCharsAux p cs []
      else splitCharsAux p cs (c :: acc)

/-- Split a string at every character satisfying `p` (empty pieces kept, as `re.split` does). -/
def splitChars (p : Char → Bool) (s : List Char) : List (List Char) :=
  splitCharsAux p s []

/-- First-occurrence deduplication worker; `seen` collects the values already emitted. -/
def dedupFirstAux : List (List Char) → List (List Char) → List (List Char)
  | [], _ => []
  | x :: xs, seen =>
      if decide (x ∈ seen) then dedupFirstAux xs seen
      else x :: dedupFirstAux xs (x :: seen)

/-- Deduplicate keeping first occurrences.  Python's `list(set(...))` yields the
same elements in an unspecified order; this embedding fixes first-occurrence
order, which is adequate because all facts proved about the result are
order-insensitive (membership, length). -/
def dedupFirst (l : List (List Char)) : List (List Char) :=
  dedupFirstAux l []

/-- Python's `random.choice`: pick an element at a seed-driven index.
The caller guards against the empty list, as the source does. -/
def pyChoice [Inhabited α] (l : List α) (r : Seed) : α × Seed :=
  let n := rnext r
  (l.getD (n.1 % l.length) default, n.2)

/-- Worker for `random.sample`: draw `k` elements without replacement at
seed-driven positions.  Every possible sample of the Python primitive is the
result for some seed. -/
def sampleAux : Nat → List α → Seed → List α × Seed
  | 0, _, r => ([], r)
  | _ + 1, [], r => ([], r)
  | k + 1, a :: as, r =>
      let n := rnext r
      let j := n.1 % (a :: as).length
      let rest := sampleAux k ((a :: as).eraseIdx j) n.2
      ((a :: as).getD j a :: rest.1, rest.2)

/-- Python's `random.sample l k` (the source only calls it with `k ≤ l.length`). -/
def pySample (l : List α) (k : Nat) (r : Seed) : List α × Seed :=
  sampleAux k l r

/-- Worker for `random.shuffle`: repeatedly pick a remaining element at a
seed-driven position.  Every permutation is the result for some seed. -/
def shuffleAux : Nat → List α → Seed → List α × Seed
  | 0, l, r => (l, r)
  | _ + 1, [], r => ([], r)
  | f + 1, a :: as, r =>
      let n := rnext r
      let j := n.1 % (a :: as).length
      let rest := shuffleAux f ((a :: as).eraseIdx j) n.2
      ((a :: as).getD j a :: rest.1, rest.2)

/-- Python's `random.shuffle` (functional: returns the shuffled list). -/
def pyShuffle (l : List α) (r : Seed) : List α × Seed :=
  shuffleAux l.length l r

/-- Worker for Python's `str.replace`, with fuel bounded by the string length:
replace every non-overlapping occurrence of `old`, scanning left to right.
The sources never call it with an empty `old`. -/
def pyReplaceAux (old new : List Char) : Nat → List Char → List Char
  | 0, s => s
  | f + 1, s =>
      if old.isEmpty then s
      else if startsWithL old s then new ++ pyReplaceAux old new f (s.drop old.length)
      else match s with
        | [] => []
        | c :: cs => c :: pyReplaceAux old new f cs

/-- Python's `str.replace old new`: every occurrence is replaced. -/
def pyReplace (s old new : List Char) : List Char :=
  pyReplaceAux old new s.length s

/-- Modelled from the spec: replace only the FIRST textual occurrence of `old`,
as the specification's question-synthesis sentence describes; kept separate so
it can be compared against the source's replace-all behaviour. -/
def specReplaceFirstAux (old new : List Char) : Nat → List Char → List Char
  | 0, s => s
  | f + 1, s =>
      if old.isEmpty then s
      else if startsWithL old s then new ++ s.drop old.length
      else match s with
        | [] => []
        | c :: cs => c :: specReplaceFirstAux old new f cs

/-- Modelled from the spec: replace only the first occurrence of `old` in `s`. -/
def specReplaceFirst (s old new : List Char) : List Char :=
  specReplaceFirstAux old new s.length s

/-! Embedding of `src/quiz_generator.py`. -/

/-- Question kind, matching the two `question_type` values of the source. -/
inductive QType
  | multiple_choice
  | short_answer
deriving DecidableEq

/-- A generated question.  The source stores `options` as a JSON-encoded list;
the embedding keeps the list itself (the JSON round-trip in
`quiz_component.py` restores exactly this list). -/
structure Question where
  question_text : List Char
  question_type : QType
  correct_answer : List Char
  options : Option (List (List Char))
deriving DecidableEq

instance : Inhabited Question := ⟨⟨[], QType.short_answer, [], none⟩⟩

/-- A generated quiz. -/
structure Quiz where
  title : List Char
  source_material : List Char
  questions : List Question
deriving DecidableEq

/-- Worker collapsing each whitespace run to a single space, the regex
substitution of one-or-more whitespace by a space; the flag records whether
the previous character was part of a run. -/
def collapseWsAux : Bool → List Char → List Char
  | _, [] => []
  | prevSpace, c :: cs =>
      if isSpaceChar c then
        if prevSpace then collapseWsAux true cs else ' ' :: collapseWsAux true cs
      else c :: collapseWsAux false cs

/-- Characters kept by the second substitution of `_preprocess_content`:
everything outside word characters, whitespace and `.,;:?!()-` is removed. -/
def keepChar (c : Char) : Bool :=
  isWordChar c || isSpaceChar c ||
    c = '.' || c = ',' || c = ';' || c = ':' || c = '?' || c = '!' ||
    c = '(' || c = ')' || c = '-'

/-- `QuizGenerator._preprocess_content`: collapse whitespace runs to single
spaces, drop special characters, then strip. -/
def preprocess_content (content : List Char) : List Char :=
  trim ((collapseWsAux false content).filter keepChar)

/-- The sentence pool both `_extract_key_facts` and the generic generators
build: split on sentence-ending punctuation, strip each fragment, keep those
of (stripped) length strictly greater than 20. -/
def sentencePool (content : List Char) : List (List Char) :=
  ((splitChars isSentEnd content).map trim).filter (fun s => decide (20 < s.length))

/-- The linking/auxiliary verbs of the fact filter. -/
def factVerbs : List (List Char) :=
  [("is").data, ("are").data, ("was").data, ("were").data, ("has").data,
   ("have").data, ("had").data, ("can").data, ("could").data, ("will").data,
   ("would").data, ("should").data, ("may").data, ("might").data]

/-- The pronoun alternatives of the fact filter, exactly as written in the
source pattern: a capital `I`, `we` and `you` (the pattern is searched in the
LOWERCASED sentence, so the `I` alternative can never match). -/
def factPronouns : List (List Char) :=
  [("I").data, ("we").data, ("you").data]

/-- The strong-fact classifier of `_extract_key_facts`: a ( case-sensitive)
whole-word search for a linking verb on the sentence, and a whole-word search
for the pronoun alternatives on the LOWERCASED sentence. -/
def isFactSentence (s : List Char) : Bool :=
  (factVerbs.any (fun v => containsWord v s)) &&
    !(factPronouns.any (fun p => containsWord p (toLowerL s)))

/-- Stable insertion into a list sorted by descending length, placing the new
element after all elements of length at least its own; folding this over the
input reproduces Python's stable `sorted(key=len, reverse=True)`. -/
def insertByLen (x : List Char) : List (List Char) → List (List Char)
  | [] => [x]
  | y :: ys => if x.length ≤ y.length then y :: insertByLen x ys else x :: y :: ys

/-- Stable sort by descending length. -/
def sortByLenDesc (l : List (List Char)) : List (List Char) :=
  l.foldl (fun acc x => insertByLen x acc) []

/-- `QuizGenerator._extract_key_facts`: the fact-filtered sentences, backfilled
up to 10 with the longest remaining sentences when fewer than 10 pass the
filter. -/
def extract_key_facts (content : List Char) : List (List Char) :=
  let sentences := sentencePool content
  let facts := sentences.filter isFactSentence
  if facts.length < 10 then
    let regular := sortByLenDesc (sentences.filter (fun s => !(facts.contains s)))
    facts ++ regular.take (10 - facts.length)
  else facts

/-- The stop-word list of `_generate_multiple_choice_question`. -/
def stopWords : List (List Char) :=
  [("about").data, ("after").data, ("again").data, ("below").data, ("could").data,
   ("every").data, ("first").data, ("found").data, ("great").data, ("house").data,
   ("large").data, ("learn").data, ("never").data, ("other").data, ("place").data,
   ("plant").data, ("point").data, ("right").data, ("small").data, ("sound").data,
   ("spell").data, ("still").data, ("study").data, ("their").data, ("there").data,
   ("these").data, ("thing").data, ("think").data, ("three").data, ("water").data,
   ("where").data, ("which").data, ("world").data, ("would").data, ("write").data]

/-- Candidate answer terms of a fact: whitespace tokens longer than 4
characters whose lowercase form is not a stop word. -/
def keyTerms (fact : List Char) : List (List Char) :=
  (splitWs fact).filter (fun w => decide (4 < w.length) && !(stopWords.contains (toLowerL w)))

/-- The blank marker used in fill-in-the-blank question texts. -/
def blank : List Char := ("________").data

/-- The fixed generic filler distractors. -/
def genericDistractors : List (List Char) :=
  [("option").data, ("example").data, ("factor").data, ("element").data,
   ("component").data, ("feature").data, ("aspect").data, ("quality").data,
   ("property").data, ("attribute").data]

/-- The deduplicated lowercased pool of content words of similar length used by
`_generate_distractors`: word runs whose length differs from the answer's by at
most 2, not case-insensitively equal to the answer, of length above 3.
Python materialises this via `list(set(...))` in unspecified order; the
embedding fixes first-occurrence order (all downstream facts are
order-insensitive). -/
def similarWords (correct_answer content : List Char) : List (List Char) :=
  dedupFirst (((wordRuns content).filter (fun w =>
      decide (((w.length : Int) - (correct_answer.length : Int)).natAbs ≤ 2) &&
      !(toLowerL w == toLowerL correct_answer) &&
      decide (3 < w.length))).map toLowerL)

/-- `QuizGenerator._generate_distractors`: sample from the similar words when
enough exist, otherwise take them all and fill up from the generic pool. -/
def generate_distractors (correct_answer content : List Char) (num : Nat) (r : Seed) :
    List (List Char) × Seed :=
  let sims := similarWords correct_answer content
  if num ≤ sims.length then pySample sims num r
  else
    let g := pySample genericDistractors (num - sims.length) r
    ((sims ++ g.1).take num, g.2)

/-- `QuizGenerator._generate_multiple_choice_question`: pick an answer term,
blank it out of the fact (Python `str.replace` replaces EVERY occurrence),
generate three distractors, and shuffle the four options. -/
def generate_multiple_choice_question (fact content : List Char) (r : Seed) :
    Option Question × Seed :=
  let terms := keyTerms fact
  if terms.isEmpty then (none, r)
  else
    let tr := pyChoice terms r
    let ds := generate_distractors tr.1 content 3 tr.2
    let sh := pyShuffle (tr.1 :: ds.1) ds.2
    (some { question_text := pyReplace fact tr.1 blank,
            question_type := QType.multiple_choice,
            correct_answer := tr.1,
            options := some sh.1 }, sh.2)

/-- Index of the last case-insensitive occurrence of `pat` in `s` that has at
least one character before it and at least one after it.  This is exactly the
boundary the greedy anchored regex of `_convert_to_question` produces: for a
pattern of dot-plus, a spaced verb, dot-plus (with the IGNORECASE flag), the
first greedy group extends to the LAST such occurrence.  The inputs reaching
this function contain no newline (preprocessing collapses all whitespace to
spaces), so the dot class is unrestricted here. -/
def patIdx (s pat : List Char) : Option Nat :=
  ((List.range s.length).filter (fun j =>
      decide (1 ≤ j) && (toLowerL ((s.drop j).take pat.length) == pat) &&
      decide (j + pat.length < s.length))).getLast?

/-- `QuizGenerator._convert_to_question`: try the six verb templates in order,
rewriting around the greedy match; otherwise fall back to the generic prompt. -/
def convert_to_question (statement : List Char) : List Char :=
  let s := trim statement
  match patIdx s ((" is ").data) with
  | some j => ("What is ").data ++ s.take j ++ [ '?' ]
  | none =>
  match patIdx s ((" are ").data) with
  | some j => ("What are ").data ++ s.take j ++ [ '?' ]
  | none =>
  match patIdx s ((" was ").data) with
  | some j => ("What was ").data ++ s.take j ++ [ '?' ]
  | none =>
  match patIdx s ((" were ").data) with
  | some j => ("What were ").data ++ s.take j ++ [ '?' ]
  | none =>
  match patIdx s ((" has ").data) with
  | some j => ("What does ").data ++ s.take j ++ (" have?").data
  | none =>
  match patIdx s ((" have ").data) with
  | some j => ("What do ").data ++ s.take j ++ (" have?").data
  | none => ("Explain the following concept: ").data ++ statement

/-- `QuizGenerator._generate_short_answer_question`: the fact converted to a
question, with the whole fact as the correct answer.  The source always
returns a question here (no failure path). -/
def generate_short_answer_question (fact : List Char) : Question :=
  { question_text := convert_to_question fact,
    question_type := QType.short_answer,
    correct_answer := fact,
    options := none }

/-- An ASCII single quote, written by code point to keep the embedding free of
quote characters inside string literals. -/
def sq : Char := Char.ofNat 39

/-- Question text of the generic multiple-choice question (the source embeds
the blanked sentence in single quotes). -/
def genericMCText (sentence target : List Char) : List Char :=
  ("Which of the following terms is mentioned in the context of: ").data ++
    [sq] ++ pyReplace sentence target blank ++ [sq] ++ [ '?' ]

/-- `QuizGenerator._generate_generic_multiple_choice_question`: pick a random
long sentence, pick a random wholly-alphabetic token longer than 4 characters,
and build a blanked question with distractors; `none` when no sentence or no
token qualifies. -/
def generate_generic_multiple_choice_question (content : List Char) (r : Seed) :
    Option Question × Seed :=
  let sentences := sentencePool content
  if sentences.isEmpty then (none, r)
  else
    let sr := pyChoice sentences r
    let terms := (splitWs sr.1).filter (fun w => decide (4 < w.length) && w.all Char.isAlpha)
    if terms.isEmpty then (none, sr.2)
    else
      let tr := pyChoice terms sr.2
      let ds := generate_distractors tr.1 content 3 tr.2
      let sh := pyShuffle (tr.1 :: ds.1) ds.2
      (some { question_text := genericMCText sr.1 tr.1,
              question_type := QType.multiple_choice,
              correct_answer := tr.1,
              options := some sh.1 }, sh.2)

/-- The five generic short-answer templates. -/
def genericSATemplates (sentence : List Char) : List (List Char) :=
  [("Explain what is meant by: ").data ++ [sq] ++ sentence ++ [sq],
   ("What is the significance of: ").data ++ [sq] ++ sentence ++ [sq],
   ("Summarize the meaning of: ").data ++ [sq] ++ sentence ++ [sq],
   ("What concept is described in: ").data ++ [sq] ++ sentence ++ [sq],
   ("Describe the importance of: ").data ++ [sq] ++ sentence ++ [sq]]

/-- `QuizGenerator._generate_generic_short_answer_question`: a random template
applied to a random long sentence; `none` when no sentence qualifies. -/
def generate_generic_short_answer_question (content : List Char) (r : Seed) :
    Option Question × Seed :=
  let sentences := sentencePool content
  if sentences.isEmpty then (none, r)
  else
    let sr := pyChoice sentences r
    let qr := pyChoice (genericSATemplates sr.1) sr.2
    (some { question_text := qr.1,
            question_type := QType.short_answer,
            correct_answer := sr.1,
            options := none }, qr.2)

/-- The multiple-choice loop of `generate_quiz`: `k` iterations, each drawing a
random fact (removed from the pool) and appending the synthesized question
when synthesis succeeds; iterations with an empty pool are no-ops. -/
def mcLoop (content : List Char) :
    Nat → List (List Char) → Seed → List Question →
    List (List Char) × List Question × Seed
  | 0, facts, r, qs => (facts, qs, r)
  | k + 1, facts, r, qs =>
      if facts.isEmpty then mcLoop content k facts r qs
      else
        let fr := pyChoice facts r
        let facts1 := facts.erase fr.1
        let g := generate_multiple_choice_question fr.1 content fr.2
        match g.1 with
        | some q => mcLoop content k facts1 g.2 (qs ++ [q])
        | none => mcLoop content k facts1 g.2 qs

/-- The short-answer loop of `generate_quiz` (short-answer synthesis always
produces a question). -/
def saLoop : Nat → List (List Char) → Seed → List Question →
    List (List Char) × List Question × Seed
  | 0, facts, r, qs => (facts, qs, r)
  | k + 1, facts, r, qs =>
      if facts.isEmpty then saLoop k facts r qs
      else
        let fr := pyChoice facts r
        saLoop k (facts.erase fr.1) fr.2 (qs ++ [generate_short_answer_question fr.1])

/-- The quota-filling `while` loop of `generate_quiz`, with explicit fuel:
while fewer than `n` questions exist, try a generic question (multiple-choice
at even counts, short-answer at odd counts) and append it when produced.
`none` for every fuel corresponds to non-termination of the Python loop. -/
def fillLoop (n : Nat) (content : List Char) :
    Nat → List Question → Seed → Option (List Question × Seed)
  | 0, _, _ => none
  | f + 1, qs, r =>
      if qs.length < n then
        let g := if qs.length % 2 == 0
          then generate_generic_multiple_choice_question content r
          else generate_generic_short_answer_question content r
        match g.1 with
        | some q => fillLoop n content f (qs ++ [q]) g.2
        | none => fillLoop n content f qs g.2
      else some (qs, r)

/-- The truncated source excerpt stored in the quiz. -/
def truncSource (content : List Char) : List Char :=
  if 500 < content.length then content.take 500 ++ ("...").data else content

/-- `QuizGenerator.generate_quiz`.  The multiple-choice quota
`max(1, int(num_questions * 0.6))` is embedded as `max 1 (3 * n / 5)`:
for every machine integer `n`, the double rounding of `n * 0.6` stays within
a distance of the exact value far below one half, so truncation agrees with
the rational floor of `3n/5`. -/
def generate_quiz (fuel : Nat) (content title : List Char) (num_questions : Nat)
    (r : Seed) : Option Quiz :=
  let pc := preprocess_content content
  let facts := extract_key_facts pc
  let numMC := max 1 (3 * num_questions / 5)
  let numSA := num_questions - numMC
  let m := mcLoop pc numMC facts r []
  let s := saLoop numSA m.1 m.2.2 m.2.1
  match fillLoop num_questions pc fuel s.2.1 s.2.2 with
  | none => none
  | some p =>
      some { title := title,
             source_material := truncSource content,
             questions := (pyShuffle p.1 p.2).1.take num_questions }

/-! Embedding of the short-answer grading of
`QuizComponent.render_quiz_taking` (src/quiz_component.py, lines 153-166). -/

/-- The set of distinct lowercased whitespace tokens of the correct answer
(`set(question['correct_answer'].lower().split())`), as a duplicate-free list. -/
def correctTerms (correct_answer : List Char) : List (List Char) :=
  dedupFirst (splitWs (toLowerL correct_answer))

/-- The set of distinct lowercased whitespace tokens of the submission. -/
def responseTerms (response : List Char) : List (List Char) :=
  dedupFirst (splitWs (toLowerL response))

/-- Size of the intersection of the two term sets. -/
def overlapCount (correct_answer response : List Char) : Nat :=
  ((correctTerms correct_answer).filter
    (fun w => decide (w ∈ responseTerms response))).length

/-- The short-answer grading rule: `overlap >= len(correct_terms) * 0.5`.
The comparison is embedded over the rationals: for the tiny integers involved,
Python's float arithmetic computes `n * 0.5` exactly, so the float comparison
and the rational comparison agree. -/
def gradeShortAnswer (correct_answer response : List Char) : Bool :=
  decide ((overlapCount correct_answer response : ℚ) ≥
    ((correctTerms correct_answer).length : ℚ) * (1 / 2))

/-! Embedding of the user/invite persistence of `src/database.py` and the
registration flow of `src/auth_manager.py`.  SQLite rows are embedded as
structures; `expires_at` timestamps are embedded as integers (the stored ISO
strings parse back to the instants they encode, and comparisons agree);
`datetime.now()` is passed in as `now`. -/

/-- A row of the `users` table (the fields the claims touch). -/
structure UserRow where
  id : Int
  username : List Char
  password_hash : List Char
  email : Option (List Char)
  is_admin : Bool
deriving DecidableEq

/-- A row of the `invite_links` table. -/
structure InviteRow where
  id : Int
  token : List Char
  email : Option (List Char)
  created_by : Int
  expires_at : Int
  used : Bool
  used_by : Option Int
  used_at : Option Int
deriving DecidableEq

/-- The database state: the two tables the claims touch, plus the next
autoincrement id for `users` (always positive in SQLite). -/
structure DbState where
  users : List UserRow
  nextId : Int
  invites : List InviteRow
deriving DecidableEq

/-- `Database.count_users`. -/
def count_users (db : DbState) : Nat :=
  db.users.length

/-- `Database.add_user`: insert unless the UNIQUE constraints on username or
email are violated, returning the new row id, or -1 on an integrity error. -/
def add_user (db : DbState) (username password_hash : List Char)
    (email : Option (List Char)) (is_admin : Bool) : Int × DbState :=
  if db.users.any (fun u => u.username == username) ||
     (match email with
      | none => false
      | some e => db.users.any (fun u => u.email == some e)) then
    (-1, db)
  else
    (db.nextId,
     { db with
        users := db.users ++
          [{ id := db.nextId, username := username, password_hash := password_hash,
             email := email, is_admin := is_admin }],
        nextId := db.nextId + 1 })

/-- `Database.get_user_by_id`. -/
def get_user_by_id (db : DbState) (user_id : Int) : Option UserRow :=
  db.users.find? (fun u => u.id == user_id)

/-- `Database.use_invite_link`: look up the row with this token that is not
used; fail if absent or expired; otherwise mark it used.  (The ISO parse
failure branch of the source cannot fire on rows written by
`create_invite_link`, whose timestamps are embedded as integers.) -/
def use_invite_link (db : DbState) (token : List Char) (user_id : Int)
    (now : Int) : Bool × DbState :=
  match db.invites.find? (fun i => i.token == token && !i.used) with
  | none => (false, db)
  | some inv =>
      if inv.expires_at < now then (false, db)
      else
        (true,
         { db with invites := db.invites.map (fun i =>
             if i.id == inv.id then
               { i with used := true, used_by := some user_id, used_at := some now }
             else i) })

/-- `AuthManager.validate_invite_token`: the same lookup and expiry check,
read-only, returning the success flag and message. -/
def validate_invite_token (db : DbState) (token : List Char) (now : Int) :
    Bool × List Char :=
  match db.invites.find? (fun i => i.token == token && !i.used) with
  | none => (false, ("Invalid or already used invite token.").data)
  | some inv =>
      if inv.expires_at < now then (false, ("Invite token has expired.").data)
      else (true, ("Invite token is valid.").data)

/-- Result shape of `AuthManager.register_user` (the `{success, message, user}`
dictionary). -/
structure RegResult where
  success : Bool
  message : List Char
  user : Option UserRow
deriving DecidableEq

/-- The final registration message of `register_user`. -/
def regMessage (isFirst tokenOk : Bool) : List Char :=
  if isFirst then ("Administrator account registered successfully.").data
  else if !tokenOk then
    ("User registered successfully, but there was an issue marking the invite token as used.").data
  else ("User registered successfully.").data

/-- `AuthManager.register_user`.  The bcrypt hash is an external call and is
passed in as the function `hash`; `invite_token = some []` models Python's
falsy empty-string token.  Control flow follows the source: token checks
first (skipped for the first user), then username and password validation,
then insertion, then token consumption for non-first users. -/
def register_user (db : DbState) (hash : List Char → List Char)
    (username password : List Char) (email : Option (List Char))
    (invite_token : Option (List Char)) (now : Int) : RegResult × DbState :=
  let isFirst := count_users db == 0
  let tokenMissing := match invite_token with
    | none => true
    | some t => t.isEmpty
  if !isFirst && tokenMissing then
    ({ success := false, message := ("Invite token is required for registration.").data,
       user := none }, db)
  else if !isFirst && !(validate_invite_token db (invite_token.getD []) now).1 then
    ({ success := false, message := (validate_invite_token db (invite_token.getD []) now).2,
       user := none }, db)
  else if username.length < 3 then
    ({ success := false, message := ("Username must be at least 3 characters long.").data,
       user := none }, db)
  else if password.length < 8 then
    ({ success := false, message := ("Password must be at least 8 characters long.").data,
       user := none }, db)
  else
    let add := add_user db username (hash password) email isFirst
    if add.1 == -1 then
      ({ success := false, message := ("Username or email already exists.").data,
         user := none }, add.2)
    else
      let use := if isFirst then (true, add.2)
        else use_invite_link add.2 (invite_token.getD []) add.1 now
      ({ success := true, message := regMessage isFirst use.1,
         user := get_user_by_id use.2 add.1 }, use.2)

/-! Embedding of the extractor backends (src/pdf_handler.py,
src/image_handler.py).  The file-system and library effects are abstracted
into an outcome describing what the external library did; each constructor is
mapped to the text the source returns for it. -/

/-- What PyPDF2 finds when opening the file. -/
inductive PyPdfOutcome
  | encrypted
  | pages (ps : List (List Char))
  | raises (e : List Char)

/-- `PDFHandler.extract_text_with_pypdf2`. -/
def extract_text_with_pypdf2 : PyPdfOutcome → List Char
  | PyPdfOutcome.encrypted =>
      ("This PDF is encrypted and requires a password for text extraction.").data
  | PyPdfOutcome.pages ps => ps.foldl (fun t p => t ++ p ++ [ '\n', '\n' ]) []
  | PyPdfOutcome.raises e => ("Error extracting text with PyPDF2: ").data ++ e

/-- What the `pdftotext` subprocess run did. -/
inductive PdftotextOutcome
  | ok (text : List Char)
  | cmdFails (stderr : List Char)
  | raises (e : List Char)

/-- `PDFHandler.extract_text_with_pdftotext`. -/
def extract_text_with_pdftotext : PdftotextOutcome → List Char
  | PdftotextOutcome.ok t => t
  | PdftotextOutcome.cmdFails err => ("Error using pdftotext: ").data ++ err
  | PdftotextOutcome.raises e => ("Error extracting text with pdftotext: ").data ++ e

/-- What the Tesseract OCR call did. -/
inductive OcrOutcome
  | ok (t : List Char)
  | raises (e : List Char)

/-- `ImageHandler.extract_text`. -/
def image_extract_text : OcrOutcome → List Char
  | OcrOutcome.ok t => t
  | OcrOutcome.raises e => ("Error extracting text: ").data ++ e

/-! Helper lemmas about the list and randomness primitives. -/

theorem getD_mem {α : Type} (l : List α) (i : Nat) (d : α) (h : i < l.length) :
    l.getD i d ∈ l := by
  induction l generalizing i with
  | nil => simp at h
  | cons a as ih =>
      cases i with
      | zero => simp
      | succ j =>
          simp only [List.getD_cons_succ]
          exact List.mem_cons_of_mem a (ih j (by simpa using h))

theorem getD_cons_eraseIdx_perm {α : Type} (l : List α) (j : Nat) (d : α)
    (h : j < l.length) : (l.getD j d :: l.eraseIdx j).Perm l := by
  induction l generalizing j with
  | nil => simp at h
  | cons a as ih =>
      cases j with
      | zero => simp
      | succ i =>
          simp only [List.getD_cons_succ, List.eraseIdx_cons_succ]
          exact (List.Perm.swap a _ _).trans
            (List.Perm.cons a (ih i (by simpa using h)))

theorem shuffleAux_perm {α : Type} (f : Nat) (l : List α) (r : Seed)
    (h : l.length ≤ f) : (shuffleAux f l r).1.Perm l := by
  induction f generalizing l r with
  | zero => exact List.Perm.refl l
  | succ f ih =>
      cases l with
      | nil => exact List.Perm.refl []
      | cons a as =>
          have hj : (rnext r).1 % (a :: as).length < (a :: as).length :=
            Nat.mod_lt _ (by simp)
          have hlen : ((a :: as).eraseIdx ((rnext r).1 % (a :: as).length)).length ≤ f := by
            rw [List.length_eraseIdx]
            simp only [hj, if_true]
            omega
          simp only [shuffleAux]
          exact (List.Perm.cons _ (ih _ _ hlen)).trans
            (getD_cons_eraseIdx_perm (a :: as) _ a hj)

theorem pyShuffle_perm {α : Type} (l : List α) (r : Seed) :
    (pyShuffle l r).1.Perm l :=
  shuffleAux_perm l.length l r (Nat.le_refl _)

theorem eraseIdx_mem {α : Type} {l : List α} {j : Nat} {x : α}
    (h : x ∈ l.eraseIdx j) : x ∈ l :=
  (List.eraseIdx_sublist l j).mem h

theorem sampleAux_mem {α : Type} (k : Nat) (l : List α) (r : Seed) (x : α)
    (h : x ∈ (sampleAux k l r).1) : x ∈ l := by
  induction k generalizing l r with
  | zero => simp [sampleAux] at h
  | succ k ih =>
      cases l with
      | nil => simp [sampleAux] at h
      | cons a as =>
          simp only [sampleAux, List.mem_cons] at h
          rcases h with h | h
          · subst h
            exact getD_mem _ _ _ (Nat.mod_lt _ (by simp))
          · exact eraseIdx_mem (ih _ _ h)

theorem sampleAux_length {α : Type} (k : Nat) (l : List α) (r : Seed)
    (h : k ≤ l.length) : (sampleAux k l r).1.length = k := by
  induction k generalizing l r with
  | zero => simp [sampleAux]
  | succ k ih =>
      cases l with
      | nil => simp at h
      | cons a as =>
          have hj : (rnext r).1 % (a :: as).length < (a :: as).length :=
            Nat.mod_lt _ (by simp)
          have hlen : k ≤ ((a :: as).eraseIdx ((rnext r).1 % (a :: as).length)).length := by
            rw [List.length_eraseIdx]
            simp only [hj, if_true]
            simp only [List.length_cons] at h ⊢
            omega
          have heq := ih ((a :: as).eraseIdx ((rnext r).1 % (a :: as).length)) (rnext r).2 hlen
          simp only [sampleAux, List.length_cons]
          simp only [List.length_cons] at heq
          omega

theorem dedupFirstAux_mem (l seen : List (List Char)) (x : List Char) :
    x ∈ dedupFirstAux l seen ↔ x ∈ l ∧ x ∉ seen := by
  induction l generalizing seen with
  | nil => simp [dedupFirstAux]
  | cons a as ih =>
      simp only [dedupFirstAux]
      by_cases ha : a ∈ seen
      · rw [if_pos (by simpa using ha), ih]
        constructor
        · rintro ⟨h1, h2⟩
          exact ⟨List.mem_cons_of_mem a h1, h2⟩
        · rintro ⟨h1, h2⟩
          rcases List.mem_cons.mp h1 with h1 | h1
          · subst h1; exact absurd ha h2
          · exact ⟨h1, h2⟩
      · rw [if_neg (by simpa using ha)]
        constructor
        · intro h
          rcases List.mem_cons.mp h with h | h
          · subst h
            exact ⟨List.mem_cons_self x as, ha⟩
          · rcases (ih _).mp h with ⟨h1, h2⟩
            simp only [List.mem_cons, not_or] at h2
            exact ⟨List.mem_cons_of_mem a h1, h2.2⟩
        · rintro ⟨h1, h2⟩
          rcases List.mem_cons.mp h1 with h1 | h1
          · subst h1; exact List.mem_cons_self x _
          · by_cases hx : x = a
            · subst hx; exact List.mem_cons_self x _
            · refine List.mem_cons_of_mem a ((ih _).mpr ⟨h1, ?_⟩)
              simp [hx, h2]

theorem dedupFirst_mem (l : List (List Char)) (x : List Char) :
    x ∈ dedupFirst l ↔ x ∈ l := by
  simp [dedupFirst, dedupFirstAux_mem]

theorem filter_length_mono {α : Type} (p q : α → Bool) (l : List α)
    (h : ∀ x ∈ l, p x = true → q x = true) :
    (l.filter p).length ≤ (l.filter q).length := by
  induction l with
  | nil => simp
  | cons a as ih =>
      have ih2 := ih (fun x hx => h x (List.mem_cons_of_mem a hx))
      by_cases hp : p a = true
      · have hq := h a (List.mem_cons_self a as) hp
        simp [List.filter_cons, hp, hq]
        omega
      · simp only [List.filter_cons, hp, if_false, Bool.false_eq_true]
        by_cases hq : q a = true <;> simp [hq] <;> omega

theorem char_toLower_idem (c : Char) : c.toLower.toLower = c.toLower := by
  by_cases h : 65 ≤ c.toNat ∧ c.toNat ≤ 90
  · have hval : (c.toNat + 32).isValidChar := Or.inl (by omega)
    have htn : (Char.ofNat (c.toNat + 32)).toNat = c.toNat + 32 := by
      rw [Char.ofNat, dif_pos hval]
      rfl
    have hlow : c.toLower = Char.ofNat (c.toNat + 32) := by
      unfold Char.toLower
      rw [if_pos h]
    rw [hlow]
    unfold Char.toLower
    rw [if_neg (by rw [htn]; omega)]
  · have hlow : c.toLower = c := by
      unfold Char.toLower
      rw [if_neg h]
    rw [hlow, hlow]

theorem toLowerL_idem (s : List Char) : toLowerL (toLowerL s) = toLowerL s := by
  simp only [toLowerL, List.map_map]
  exact List.map_congr_left (fun c _ => char_toLower_idem c)

theorem half_ratio (o n : Nat) :
    ((o : ℚ) ≥ (n : ℚ) * (1 / 2)) ↔ n ≤ 2 * o := by
  constructor
  · intro h
    have h2 : (n : ℚ) ≤ 2 * o := by linarith
    exact_mod_cast h2
  · intro h
    have h2 : (n : ℚ) ≤ 2 * o := by exact_mod_cast h
    linarith

theorem pyChoice_mem {α : Type} [Inhabited α] (l : List α) (r : Seed)
    (h : l ≠ []) : (pyChoice l r).1 ∈ l := by
  have : 0 < l.length := List.length_pos.mpr h
  exact getD_mem _ _ _ (Nat.mod_lt _ this)

theorem mem_of_token_pairwise {l : List InviteRow}
    (hp : l.Pairwise (fun a b => a.token ≠ b.token)) {a b : InviteRow}
    (ha : a ∈ l) (hb : b ∈ l) (ht : a.token = b.token) : a = b := by
  induction l with
  | nil => simp at ha
  | cons x xs ih =>
      rcases List.pairwise_cons.mp hp with ⟨hx, hxs⟩
      rcases List.mem_cons.mp ha with ha1 | ha1 <;>
        rcases List.mem_cons.mp hb with hb1 | hb1
      · rw [ha1, hb1]
      · subst ha1; exact absurd ht (hx b hb1)
      · subst hb1; exact absurd ht.symm (hx a ha1)
      · exact ih hxs ha1 hb1

/-! Lemmas about distractor generation and option assembly. -/

theorem genericDistractors_lower : ∀ g ∈ genericDistractors, toLowerL g = g := by
  decide

theorem similarWords_prop (c content d : List Char)
    (hd : d ∈ similarWords c content) : toLowerL d ≠ toLowerL c ∧ d ≠ c := by
  unfold similarWords at hd
  rw [dedupFirst_mem] at hd
  rcases List.mem_map.mp hd with ⟨w, hw, hdw⟩
  rcases List.mem_filter.mp hw with ⟨-, hcond⟩
  simp only [Bool.and_eq_true, Bool.not_eq_true', beq_eq_false_iff_ne, ne_eq] at hcond
  have hne : toLowerL w ≠ toLowerL c := hcond.1.2
  subst hdw
  refine ⟨?_, ?_⟩
  · rw [toLowerL_idem]
    exact hne
  · intro hdc
    exact hne ((toLowerL_idem w).symm.trans (congrArg toLowerL hdc))

theorem generate_distractors_length (c content : List Char) (r : Seed) :
    ((generate_distractors c content 3 r).1).length = 3 := by
  unfold generate_distractors
  by_cases h : 3 ≤ (similarWords c content).length
  · rw [if_pos h]
    exact sampleAux_length 3 _ r h
  · rw [if_neg h]
    have h10 : genericDistractors.length = 10 := rfl
    have hg : (pySample genericDistractors (3 - (similarWords c content).length) r).1.length
        = 3 - (similarWords c content).length := by
      apply sampleAux_length
      omega
    simp only [List.length_take, List.length_append, hg]
    omega

theorem generate_distractors_ne (c content : List Char) (r : Seed)
    (hc : toLowerL c ∉ genericDistractors) :
    ∀ d ∈ (generate_distractors c content 3 r).1,
      toLowerL d ≠ toLowerL c ∧ d ≠ c := by
  intro d hd
  unfold generate_distractors at hd
  by_cases h : 3 ≤ (similarWords c content).length
  · rw [if_pos h] at hd
    exact similarWords_prop c content d (sampleAux_mem _ _ _ _ hd)
  · rw [if_neg h] at hd
    have hd2 := List.take_subset _ _ hd
    rcases List.mem_append.mp hd2 with hds | hdg
    · exact similarWords_prop c content d hds
    · have hdg2 : d ∈ genericDistractors := sampleAux_mem _ _ _ _ hdg
      have hdl : toLowerL d = d := genericDistractors_lower d hdg2
      refine ⟨?_, ?_⟩
      · intro he
        apply hc
        rw [← he, hdl]
        exact hdg2
      · intro he
        subst he
        rw [hdl] at hc
        exact hc hdg2

theorem options_shuffle_length (c : List Char) (ds : List (List Char)) (r : Seed)
    (hlen : ds.length = 3) : ((pyShuffle (c :: ds) r).1).length = 4 := by
  rw [(pyShuffle_perm (c :: ds) r).length_eq]
  simp [hlen]

theorem options_shuffle_count (c : List Char) (ds : List (List Char)) (r : Seed)
    (hne : ∀ d ∈ ds, toLowerL d ≠ toLowerL c ∧ d ≠ c) :
    ((pyShuffle (c :: ds) r).1).count c = 1 ∧
    ∀ d ∈ (pyShuffle (c :: ds) r).1, d ≠ c → toLowerL d ≠ toLowerL c := by
  have hp := pyShuffle_perm (c :: ds) r
  refine ⟨?_, ?_⟩
  · simp only [List.count]
    rw [hp.countP_eq]
    have h0 : List.countP (fun x => x == c) ds = 0 := by
      rw [List.countP_eq_zero]
      intro a ha
      simpa using (hne a ha).2
    simp [List.countP_cons, h0]
  · intro d hd hdc
    rcases List.mem_cons.mp (hp.mem_iff.mp hd) with h | h
    · exact absurd h hdc
    · exact (hne d h).1

/-- C2 (amended): every multiple-choice question, from the fact-based and from
the generic path, carries exactly 4 options; and whenever the lowercased
correct answer is not one of the 10 generic filler words, the correct answer
appears exactly once among the options and no other option equals it after
lowercasing.  (When the correct answer is itself a generic filler word the
filler sample can duplicate it; see the counterexample.) -/
theorem mc_options_invariant :
    (∀ fact content r q opts,
        (generate_multiple_choice_question fact content r).1 = some q →
        q.options = some opts →
        opts.length = 4 ∧
        (toLowerL q.correct_answer ∉ genericDistractors →
          opts.count q.correct_answer = 1 ∧
          ∀ d ∈ opts, d ≠ q.correct_answer →
            toLowerL d ≠ toLowerL q.correct_answer)) ∧
    (∀ content r q opts,
        (generate_generic_multiple_choice_question content r).1 = some q →
        q.options = some opts →
        opts.length = 4 ∧
        (toLowerL q.correct_answer ∉ genericDistractors →
          opts.count q.correct_answer = 1 ∧
          ∀ d ∈ opts, d ≠ q.correct_answer →
            toLowerL d ≠ toLowerL q.correct_answer)) := by
  constructor
  · intro fact content r q opts h hopts
    simp only [generate_multiple_choice_question] at h
    by_cases ht : (keyTerms fact).isEmpty = true
    · rw [if_pos ht] at h
      exact absurd h (by simp)
    · rw [if_neg ht] at h
      have h2 := Option.some.inj h
      subst h2
      have h3 := Option.some.inj hopts
      subst h3
      refine ⟨options_shuffle_length _ _ _ (generate_distractors_length _ _ _), ?_⟩
      intro hpool
      exact options_shuffle_count _ _ _ (generate_distractors_ne _ _ _ hpool)
  · intro content r q opts h hopts
    simp only [generate_generic_multiple_choice_question] at h
    by_cases hs : (sentencePool content).isEmpty = true
    · rw [if_pos hs] at h
      exact absurd h (by simp)
    · rw [if_neg hs] at h
      by_cases ht : (((splitWs (pyChoice (sentencePool content) r).1).filter
          (fun w => decide (4 < w.length) && w.all Char.isAlpha)).isEmpty = true)
      · rw [if_pos ht] at h
        exact absurd h (by simp)
      · rw [if_neg ht] at h
        have h2 := Option.some.inj h
        subst h2
        have h3 := Option.some.inj hopts
        subst h3
        refine ⟨options_shuffle_length _ _ _ (generate_distractors_length _ _ _), ?_⟩
        intro hpool
        exact options_shuffle_count _ _ _ (generate_distractors_ne _ _ _ hpool)

/-- Concrete question produced for the options-invariant witness. -/
def c2q : Question :=
  { question_text := ("a ________ sleeps").data,
    question_type := QType.multiple_choice,
    correct_answer := ("tiger").data,
    options := some [("tiger").data, ("option").data, ("example").data, ("factor").data] }

/-- Concrete options list of the options-invariant witness. -/
def c2opts : List (List Char) :=
  [("tiger").data, ("option").data, ("example").data, ("factor").data]

/-- C2 witness: a concrete run of the fact-based generator on which the
amended invariant is verified. -/
theorem mc_options_invariant_witness :
    (generate_multiple_choice_question ("a tiger sleeps").data ("a b c").data []).1
      = some c2q ∧
    c2q.options = some c2opts ∧
    toLowerL c2q.correct_answer ∉ genericDistractors ∧
    (c2opts.length = 4 ∧ c2opts.count c2q.correct_answer = 1 ∧
      ∀ d ∈ c2opts, d ≠ c2q.correct_answer →
        toLowerL d ≠ toLowerL c2q.correct_answer) := by
  have h := mc_options_invariant.1 ("a tiger sleeps").data ("a b c").data [] c2q c2opts
    (by decide) (by decide)
  exact ⟨by decide, by decide, by decide, h.1, (h.2 (by decide)).1, (h.2 (by decide)).2⟩

/-- C2 counterexample: when the correct answer is the generic filler word
"option", the generic sample can return "option" itself as a distractor, so
the options list carries the correct answer twice and a distractor equals the
correct answer (also after lowercasing), refuting the claim as stated. -/
theorem mc_distractor_collision :
    (generate_distractors ("option").data ("a b c").data 3 []).1 =
      [("option").data, ("example").data, ("factor").data] ∧
    (generate_multiple_choice_question ("an option is up").data ("a b c").data []).1 =
      some { question_text := ("an ________ is up").data,
             question_type := QType.multiple_choice,
             correct_answer := ("option").data,
             options := some [("option").data, ("option").data,
                              ("example").data, ("factor").data] } ∧
    List.count (("option").data)
      [("option").data, ("option").data, ("example").data, ("factor").data] = 2 := by
  exact ⟨by decide, by decide, by decide⟩

/-- C7 (amended): the multiple-choice question text is the fact with EVERY
textual occurrence of the chosen answer term replaced by the blank marker
(Python's str.replace replaces all occurrences, not only the first), the
answer term being drawn from the fact's candidate terms. -/
theorem mc_question_text_replace_all :
    ∀ fact content r q,
      (generate_multiple_choice_question fact content r).1 = some q →
      q.question_text = pyReplace fact q.correct_answer blank ∧
      q.correct_answer ∈ keyTerms fact := by
  intro fact content r q h
  simp only [generate_multiple_choice_question] at h
  by_cases ht : (keyTerms fact).isEmpty = true
  · rw [if_pos ht] at h
    exact absurd h (by simp)
  · rw [if_neg ht] at h
    have h2 := Option.some.inj h
    subst h2
    refine ⟨rfl, ?_⟩
    refine pyChoice_mem _ _ (fun hnil => ht ?_)
    simp [hnil]

/-- Concrete question produced for the replace-all witness. -/
def c7q : Question :=
  { question_text := ("a lion ________").data,
    question_type := QType.multiple_choice,
    correct_answer := ("roars").data,
    options := some [("roars").data, ("option").data, ("example").data, ("factor").data] }

/-- C7 witness: a concrete run on which the amended replace-all description of
the question text is verified. -/
theorem mc_question_text_replace_all_witness :
    (generate_multiple_choice_question ("a lion roars").data ("a b c").data []).1
      = some c7q ∧
    (c7q.question_text = pyReplace ("a lion roars").data c7q.correct_answer blank ∧
      c7q.correct_answer ∈ keyTerms ("a lion roars").data) :=
  ⟨by decide,
   mc_question_text_replace_all ("a lion roars").data ("a b c").data [] c7q (by decide)⟩

/-- C7 counterexample: on a fact containing the answer term twice, the
generated question text blanks BOTH occurrences, and differs from the
first-occurrence-only replacement the claim describes. -/
theorem replace_all_occurrences_cex :
    (generate_multiple_choice_question ("zebra near a zebra now").data
        ("a b c").data []).1 =
      some { question_text := ("________ near a ________ now").data,
             question_type := QType.multiple_choice,
             correct_answer := ("zebra").data,
             options := some [("zebra").data, ("option").data,
                              ("example").data, ("factor").data] } ∧
    specReplaceFirst ("zebra near a zebra now").data ("zebra").data blank =
      ("________ near a zebra now").data ∧
    ("________ near a ________ now").data ≠ ("________ near a zebra now").data := by
  exact ⟨by decide, by decide, by decide⟩

theorem fillLoop_empty_content (fuel : Nat) (r : Seed) :
    fillLoop 1 [] fuel [] r = none := by
  induction fuel generalizing r with
  | zero => rfl
  | succ f ih => exact ih r

/-- C1: on source text whose preprocessed form has no sentence fragment longer
than 20 characters (here: the empty string), the fact pool and the generic
sentence pool are both empty, every iteration of the quota-filling loop
produces nothing, and generate_quiz never returns — for every fuel the
embedded loop yields none, refuting the claim that a quiz with exactly
num_questions questions is returned for every content string. -/
theorem generate_quiz_diverges_on_empty (fuel : Nat) (r : Seed) :
    generate_quiz fuel [] ("quiz").data 1 r = none := by
  show (match fillLoop 1 [] fuel [] r with
        | none => none
        | some p =>
            some (Quiz.mk (("quiz").data) (truncSource [])
              ((pyShuffle p.1 p.2).1.take 1))) = none
  rw [fillLoop_empty_content fuel r]

/-- C6: the source lowercases the sentence before searching the pronoun
pattern, so the capital-I alternative of the pattern can never match; this
fragment contains the whole word I together with a linking verb and whole-word
occurrences of neither we nor you, is longer than 20 characters, and is
nevertheless classified as a strong fact candidate — contradicting the claim
that every fragment containing the pronoun I is excluded from the strong tier. -/
theorem fact_filter_includes_pronoun_I :
    isFactSentence ("I was busy all day long today").data = true ∧
    containsWord (("I").data) (("I was busy all day long today").data) = true ∧
    containsWord (("we").data) (toLowerL ("I was busy all day long today").data) = false ∧
    containsWord (("you").data) (toLowerL ("I was busy all day long today").data) = false ∧
    20 < (trim ("I was busy all day long today").data).length := by
  exact ⟨by decide, by decide, by decide, by decide, by decide⟩

/-- C8 (amended): a fragment enters the candidate sentence pool exactly when
its stripped form is LONGER than 20 characters; in particular a fragment of
trimmed length exactly 20 is discarded (see the counterexample), matching the
data model's length > 20 and not the `at least 20 is kept` reading. -/
theorem sentence_pool_mem :
    ∀ content s, s ∈ sentencePool content ↔
      ∃ frag ∈ splitChars isSentEnd content, s = trim frag ∧ 20 < s.length := by
  intro content s
  unfold sentencePool
  rw [List.mem_filter, List.mem_map]
  constructor
  · rintro ⟨⟨frag, hf, hfs⟩, hlen⟩
    exact ⟨frag, hf, hfs.symm, by simpa using hlen⟩
  · rintro ⟨frag, hf, hfs, hlen⟩
    exact ⟨⟨frag, hf, hfs.symm⟩, by simpa using hlen⟩

/-- C8 counterexample: a fragment whose trimmed length is exactly 20
characters is NOT kept — the sentence pool of this content is empty, refuting
the claim that fragments of trimmed length at least 20 are kept. -/
theorem boundary_20_discarded :
    ("abcdefghij abcdefghi").data ∈
      splitChars isSentEnd (("abcdefghij abcdefghi.").data) ∧
    (trim ("abcdefghij abcdefghi").data).length = 20 ∧
    sentencePool (("abcdefghij abcdefghi.").data) = [] := by
  exact ⟨by decide, by decide, by decide⟩

/-- C9 (amended): every exception-path extraction failure of the backends is
reported as text beginning with Error; but the encrypted-PDF failure of the
PyPDF2 backend is reported as a message that does NOT begin with Error, so
prefix sniffing does not detect every failure. -/
theorem extraction_error_messages :
    (∀ e, startsWithL ("Error").data
        (extract_text_with_pypdf2 (PyPdfOutcome.raises e)) = true) ∧
    (∀ e, startsWithL ("Error").data
        (extract_text_with_pdftotext (PdftotextOutcome.cmdFails e)) = true) ∧
    (∀ e, startsWithL ("Error").data
        (extract_text_with_pdftotext (PdftotextOutcome.raises e)) = true) ∧
    (∀ e, startsWithL ("Error").data
        (image_extract_text (OcrOutcome.raises e)) = true) ∧
    startsWithL ("Error").data (extract_text_with_pypdf2 PyPdfOutcome.encrypted) = false := by
  refine ⟨fun e => rfl, fun e => rfl, fun e => rfl, fun e => rfl, by decide⟩

/-- C9 counterexample: the encrypted-PDF extraction failure is plain text that
does not begin with Error, refuting the claim that every extraction failure
does. -/
theorem encrypted_pdf_not_error :
    extract_text_with_pypdf2 PyPdfOutcome.encrypted =
      ("This PDF is encrypted and requires a password for text extraction.").data ∧
    startsWithL ("Error").data (extract_text_with_pypdf2 PyPdfOutcome.encrypted) = false := by
  exact ⟨by decide, by decide⟩

/-! Short-answer grading lemmas and claims. -/

theorem gradeShortAnswer_iff (c resp : List Char) :
    gradeShortAnswer c resp = true ↔
      (correctTerms c).length ≤ 2 * overlapCount c resp := by
  unfold gradeShortAnswer
  simp only [decide_eq_true_eq]
  exact half_ratio _ _

/-- C5 (amended): the grading flag is exactly the 50-percent overlap threshold
(stated integrally: twice the intersection size at least the number of
distinct correct-answer words, the boundary case grading correct); submitting
the exact correct answer always grades correct; and a submission disjoint from
a NON-EMPTY correct word set grades incorrect.  (Without the non-emptiness
restriction the disjointness clause fails; see the counterexample.) -/
theorem short_answer_grading :
    (∀ c resp, gradeShortAnswer c resp = true ↔
        (correctTerms c).length ≤ 2 * overlapCount c resp) ∧
    (∀ c, gradeShortAnswer c c = true) ∧
    (∀ c resp, splitWs (toLowerL c) ≠ [] →
        (∀ w ∈ splitWs (toLowerL c), w ∉ splitWs (toLowerL resp)) →
        gradeShortAnswer c resp = false) := by
  refine ⟨gradeShortAnswer_iff, ?_, ?_⟩
  · intro c
    rw [gradeShortAnswer_iff]
    have hfull : (correctTerms c).filter
        (fun w => decide (w ∈ responseTerms c)) = correctTerms c := by
      rw [List.filter_eq_self]
      intro a ha
      simpa using ha
    have : overlapCount c c = (correctTerms c).length := by
      unfold overlapCount
      rw [hfull]
    omega
  · intro c resp hne hdisj
    have h0 : overlapCount c resp = 0 := by
      unfold overlapCount
      rw [List.length_eq_zero, List.filter_eq_nil_iff]
      intro a ha
      simp only [decide_eq_true_eq]
      intro hmem
      exact hdisj a ((dedupFirst_mem _ _).mp ha) ((dedupFirst_mem _ _).mp hmem)
    have hlen : (correctTerms c).length ≠ 0 := by
      intro h
      rw [List.length_eq_zero] at h
      rcases List.exists_mem_of_ne_nil _ hne with ⟨w, hw⟩
      have hmem : w ∈ correctTerms c := (dedupFirst_mem _ _).mpr hw
      rw [h] at hmem
      simp at hmem
    cases hgr : gradeShortAnswer c resp
    · rfl
    · exfalso
      have hle := (gradeShortAnswer_iff c resp).mp hgr
      rw [h0] at hle
      omega

/-- C5 witness: concrete instances of the three grading facts. -/
theorem short_answer_grading_witness :
    (gradeShortAnswer ("alpha beta").data ("beta more").data = true ↔
      (correctTerms ("alpha beta").data).length ≤
        2 * overlapCount ("alpha beta").data ("beta more").data) ∧
    gradeShortAnswer ("gamma delta").data ("gamma delta").data = true ∧
    (splitWs (toLowerL ("alpha beta").data) ≠ [] ∧
      (∀ w ∈ splitWs (toLowerL ("alpha beta").data),
        w ∉ splitWs (toLowerL ("zzz www").data)) ∧
      gradeShortAnswer ("alpha beta").data ("zzz www").data = false) :=
  ⟨short_answer_grading.1 (("alpha beta").data) (("beta more").data),
   short_answer_grading.2.1 (("gamma delta").data),
   by decide, by decide,
   short_answer_grading.2.2 (("alpha beta").data) (("zzz www").data)
     (by decide) (by decide)⟩

/-- C5 counterexample: with an empty correct answer the correct-term set is
empty and the threshold is 0 of 0, so a submission whose word set is disjoint
from the correct answer's still grades CORRECT, refuting the claim that a
disjoint submission always grades incorrect. -/
theorem empty_correct_answer_grades_correct :
    gradeShortAnswer [] ("hello").data = true ∧
    (∀ w ∈ splitWs (toLowerL ([] : List Char)),
      w ∉ splitWs (toLowerL ("hello").data)) := by
  exact ⟨(gradeShortAnswer_iff [] (("hello").data)).mpr (by decide), by decide⟩

/-- C10: grading is monotone in the submission's word set — for a non-empty
correct answer, enlarging the submission's lowercased word set can only turn
the grade from incorrect to correct, never the other way. -/
theorem grading_monotone :
    ∀ c sub sup, splitWs (toLowerL c) ≠ [] →
      (∀ w ∈ splitWs (toLowerL sub), w ∈ splitWs (toLowerL sup)) →
      gradeShortAnswer c sub = true → gradeShortAnswer c sup = true := by
  intro c sub sup _ hsub h
  rw [gradeShortAnswer_iff] at h ⊢
  have hmono : overlapCount c sub ≤ overlapCount c sup := by
    unfold overlapCount
    apply filter_length_mono
    intro x _ hpx
    simp only [decide_eq_true_eq] at hpx ⊢
    exact (dedupFirst_mem _ _).mpr (hsub x ((dedupFirst_mem _ _).mp hpx))
  omega

/-- C10 witness: a concrete monotone pair. -/
theorem grading_monotone_witness :
    splitWs (toLowerL ("alpha beta").data) ≠ [] ∧
    (∀ w ∈ splitWs (toLowerL ("alpha").data),
      w ∈ splitWs (toLowerL ("alpha gamma").data)) ∧
    gradeShortAnswer ("alpha beta").data ("alpha").data = true ∧
    gradeShortAnswer ("alpha beta").data ("alpha gamma").data = true :=
  ⟨by decide, by decide,
   (gradeShortAnswer_iff (("alpha beta").data) (("alpha").data)).mpr (by decide),
   grading_monotone (("alpha beta").data) (("alpha").data) (("alpha gamma").data)
     (by decide) (by decide)
     ((gradeShortAnswer_iff (("alpha beta").data) (("alpha").data)).mpr (by decide))⟩

/-! Invite lifecycle and registration claims. -/

/-- C3: a token redeemed once cannot be redeemed again — after a successful
use_invite_link, any further call with the same token (any caller, any later
time) fails and leaves the state unchanged; and a call on a token whose
expires_at is earlier than the current time fails without marking the token
used (the state is returned unchanged).  The pairwise hypothesis is the
UNIQUE constraint of the invite_links.token column. -/
theorem invite_single_use_and_expiry :
    (∀ (db : DbState) (t : List Char) (uid now : Int) (db2 : DbState)
        (uid2 now2 : Int),
        db.invites.Pairwise (fun a b => a.token ≠ b.token) →
        use_invite_link db t uid now = (true, db2) →
        use_invite_link db2 t uid2 now2 = (false, db2)) ∧
    (∀ (db : DbState) (t : List Char) (uid now : Int) (inv : InviteRow),
        db.invites.find? (fun i => i.token == t && !i.used) = some inv →
        inv.expires_at < now →
        use_invite_link db t uid now = (false, db)) := by
  constructor
  · intro db t uid now db2 uid2 now2 hpw h
    unfold use_invite_link at h
    split at h
    · exact absurd (congrArg Prod.fst h) (by simp)
    · rename_i inv hfind
      split at h
      · exact absurd (congrArg Prod.fst h) (by simp)
      · rename_i hexp
        rw [Prod.mk.injEq] at h
        have hpinv := List.find?_some hfind
        have hminv := List.mem_of_find?_eq_some hfind
        simp only [Bool.and_eq_true, beq_iff_eq, Bool.not_eq_true'] at hpinv
        have hinv2 : db2.invites = db.invites.map (fun i =>
            if i.id == inv.id then
              { i with used := true, used_by := some uid, used_at := some now }
            else i) := by
          rw [← h.2]
        have hnone : db2.invites.find? (fun i => i.token == t && !i.used) = none := by
          rw [hinv2, List.find?_eq_none]
          intro j hj
          rcases List.mem_map.mp hj with ⟨i, hi, hij⟩
          by_cases hid : (i.id == inv.id) = true
          · rw [if_pos hid] at hij
            subst hij
            simp
          · rw [if_neg hid] at hij
            subst hij
            intro hpred
            simp only [Bool.and_eq_true, beq_iff_eq, Bool.not_eq_true'] at hpred
            have heq : i = inv :=
              mem_of_token_pairwise hpw hi hminv (hpred.1.trans hpinv.1.symm)
            rw [heq] at hid
            simp at hid
        unfold use_invite_link
        rw [hnone]
  · intro db t uid now inv hfind hexp
    unfold use_invite_link
    split
    · rfl
    · rename_i inv2 hfind2
      rw [hfind] at hfind2
      cases Option.some.inj hfind2
      rw [if_pos hexp]

/-- Concrete invite row for the C3 witness. -/
def c3invite : InviteRow :=
  { id := 1, token := ("tok").data, email := none, created_by := 1,
    expires_at := 100, used := false, used_by := none, used_at := none }

/-- Concrete database state with one fresh invite. -/
def c3db : DbState := { users := [], nextId := 1, invites := [c3invite] }

/-- The state after the invite has been redeemed by user 7 at time 50. -/
def c3dbUsed : DbState :=
  { users := [], nextId := 1,
    invites := [{ c3invite with used := true, used_by := some 7, used_at := some 50 }] }

/-- Concrete database state with one expired invite. -/
def c3dbExp : DbState :=
  { users := [], nextId := 1,
    invites := [{ c3invite with id := 2, token := ("tok2").data, expires_at := 10 }] }

/-- C3 witness: a concrete redeem-then-retry run and a concrete expired-token
call. -/
theorem invite_single_use_and_expiry_witness :
    c3db.invites.Pairwise (fun a b => a.token ≠ b.token) ∧
    use_invite_link c3db (("tok").data) 7 50 = (true, c3dbUsed) ∧
    use_invite_link c3dbUsed (("tok").data) 8 60 = (false, c3dbUsed) ∧
    c3dbExp.invites.find? (fun i => i.token == ("tok2").data && !i.used) =
      some { c3invite with id := 2, token := ("tok2").data, expires_at := 10 } ∧
    (10 : Int) < 20 ∧
    use_invite_link c3dbExp (("tok2").data) 7 20 = (false, c3dbExp) :=
  ⟨List.Pairwise.cons (fun b hb => absurd hb (by simp)) List.Pairwise.nil, by decide,
   invite_single_use_and_expiry.1 c3db (("tok").data) 7 50 c3dbUsed 8 60
     (List.Pairwise.cons (fun b hb => absurd hb (by simp)) List.Pairwise.nil) (by decide),
   by decide, by decide,
   invite_single_use_and_expiry.2 c3dbExp (("tok2").data) 7 20
     ({ c3invite with id := 2, token := ("tok2").data, expires_at := 10 })
     (by decide) (by decide)⟩

/-- C4: with an empty users table, register_user succeeds without an invite
token for any valid username (at least 3 characters) and password (at least 8
characters), and the created user is an administrator; as soon as any user
exists, register_user without an invite token fails.  (nextId is the SQLite
autoincrement counter, which is always at least 1.) -/
theorem first_user_registration :
    (∀ (db : DbState) (hash : List Char → List Char) (u p : List Char)
        (e : Option (List Char)) (now : Int),
        db.users = [] → 1 ≤ db.nextId → 3 ≤ u.length → 8 ≤ p.length →
        (register_user db hash u p e none now).1.success = true ∧
        ∃ usr, (register_user db hash u p e none now).1.user = some usr ∧
          usr.is_admin = true) ∧
    (∀ (db : DbState) (hash : List Char → List Char) (u p : List Char)
        (e : Option (List Char)) (now : Int),
        db.users ≠ [] →
        (register_user db hash u p e none now).1.success = false) := by
  constructor
  · intro db hash u p e now hemp hnid hu hp
    obtain ⟨us, nid, invs⟩ := db
    simp only at hemp hnid
    subst hemp
    have hne : ¬((nid == -1) = true) := by
      simp only [beq_iff_eq]
      omega
    cases e with
    | none =>
        simp only [register_user, count_users, add_user, get_user_by_id,
          List.length_nil, List.any_nil, Bool.or_false, Bool.false_or,
          beq_self_eq_true, Bool.not_true, Bool.false_and, Bool.false_eq_true,
          if_false, eq_self_iff_true, if_true, List.nil_append]
        rw [if_neg (by omega), if_neg (by omega), if_neg hne]
        refine ⟨rfl, ?_⟩
        rw [List.find?_cons_of_pos _ (by simp)]
        exact ⟨_, rfl, rfl⟩
    | some ev =>
        simp only [register_user, count_users, add_user, get_user_by_id,
          List.length_nil, List.any_nil, Bool.or_false, Bool.false_or,
          beq_self_eq_true, Bool.not_true, Bool.false_and, Bool.false_eq_true,
          if_false, eq_self_iff_true, if_true, List.nil_append]
        rw [if_neg (by omega), if_neg (by omega), if_neg hne]
        refine ⟨rfl, ?_⟩
        rw [List.find?_cons_of_pos _ (by simp)]
        exact ⟨_, rfl, rfl⟩
  · intro db hash u p e now hne
    have h0 : (count_users db == 0) = false := by
      simp only [count_users, beq_eq_false_iff_ne, ne_eq]
      simpa [List.length_eq_zero] using hne
    simp only [register_user, h0, Bool.not_false, Bool.true_and,
      eq_self_iff_true, if_true]

/-- Concrete empty database for the C4 witness. -/
def c4db0 : DbState := { users := [], nextId := 1, invites := [] }

/-- Concrete database already holding one user. -/
def c4db1 : DbState :=
  { users := [{ id := 1, username := ("abc").data, password_hash := ("password").data,
                email := none, is_admin := true }],
    nextId := 2, invites := [] }

/-- C4 witness: a concrete first registration (admin, no token) and a concrete
rejected second registration without a token. -/
theorem first_user_registration_witness :
    c4db0.users = [] ∧ (1 : Int) ≤ c4db0.nextId ∧
    3 ≤ (("abc").data).length ∧ 8 ≤ (("password").data).length ∧
    ((register_user c4db0 (fun s => s) (("abc").data) (("password").data)
        none none 0).1.success = true ∧
      ∃ usr, (register_user c4db0 (fun s => s) (("abc").data) (("password").data)
          none none 0).1.user = some usr ∧ usr.is_admin = true) ∧
    c4db1.users ≠ [] ∧
    (register_user c4db1 (fun s => s) (("xyz").data) (("password").data)
        none none 0).1.success = false :=
  ⟨rfl, by decide, by decide, by decide,
   first_user_registration.1 c4db0 (fun s => s) (("abc").data) (("password").data)
     none 0 rfl (by decide) (by decide) (by decide),
   by decide,
   first_user_registration.2 c4db1 (fun s => s) (("xyz").data) (("password").data)
     none 0 (by decide)⟩

end AITutor
